import Mathlib

/-!
Shallow embedding of `rllib/env/remote_base_env.py` (`RemoteBaseEnv` and its
two actor-wrapper classes `_RemoteMultiAgentEnv`, `_RemoteSingleAgentEnv`).

Python values flowing through `poll()` are modelled by the inductive `RVal`:
tuples, dicts keyed by agent identifiers, numbers, booleans, opaque objects
and exception objects.  Dicts are association lists with Python update
semantics (`setKey`).  The dispatcher state (`DState`) carries the worker
pool (`actors`, a list of opaque actor identities), the pending table
(`pending`, mapping task-handle to actor identity), the construction flags,
and fresh-identity counters for newly built actors and newly issued handles.
-/

/-- Agent identifiers: the reserved dummy agent id (`_DUMMY_AGENT_ID`), the
reserved `"__all__"` key, or an ordinary named agent. -/
inductive AgentKey where
  | dummy : AgentKey
  | all : AgentKey
  | name : String → AgentKey
deriving DecidableEq, Repr

/-- Python values as inspected by the code under verification: opaque
objects, exception objects, ints, floats, bools, dicts keyed by agent
identifiers, and tuples. -/
inductive RVal where
  | obj : Nat → RVal
  | exn : Nat → RVal
  | vint : Int → RVal
  | vfloat : Int → RVal
  | vbool : Bool → RVal
  | vdict : List (AgentKey × RVal) → RVal
  | vtup : List RVal → RVal
  /-- the `ASYNC_RESET_RETURN` sentinel imported from `base_env`. -/
  | sentinel : RVal

/-- Python dict assignment `d[k] = v`: replace the first binding of `k`
in place, else append. -/
def setKey {κ α : Type} [DecidableEq κ] (k : κ) (v : α) :
    List (κ × α) → List (κ × α)
  | [] => [(k, v)]
  | (k', v') :: rest =>
      if k' = k then (k, v) :: rest else (k', v') :: setKey k v rest

/-- Python dict lookup `d[k]` (first binding). -/
def getKey {κ α : Type} [DecidableEq κ] (k : κ) : List (κ × α) → Option α
  | [] => none
  | (k', v') :: rest => if k' = k then some v' else getKey k rest

/-- Whether `v` is a dict that has the key `k`. -/
def RVal.hasKey (v : RVal) (k : AgentKey) : Bool :=
  match v with
  | .vdict d => d.any (fun p => p.1 = k)
  | _ => false

/-- The canonical per-worker record `(ob, rew, terminated, truncated, info)`
as produced by the normalization paths of `poll()` and by the wrappers. -/
structure Record where
  ob : RVal
  rew : RVal
  terminated : RVal
  truncated : RVal
  info : RVal

/-- Errors that can be raised out of `poll()` (and the wrapper methods). -/
inductive PollError where
  /-- The original fault from `ray.get`, re-raised when
  `restart_failed_sub_environments` is false. -/
  | transientFault : RVal → PollError
  /-- `AssertionError`: a reset/step tuple whose arity is neither 5 nor 2. -/
  | formatViolation : PollError
  /-- `AssertionError`: a non-tuple reset/step return value. -/
  | singleValueReset : PollError
  /-- `ValueError`/`TypeError` from unpacking a wrapped-mode result that is
  not a 5-tuple. -/
  | unpackError : PollError
  /-- `KeyError` from `self.pending.pop(obj_ref)` with an unknown handle. -/
  | keyError : PollError
  /-- `ValueError` from `self.actors.index(actor)` when the actor is no
  longer in the pool. -/
  | valueError : PollError
  /-- `AttributeError` from calling `.keys()` on a non-dict observation. -/
  | attributeError : PollError
  /-- `IndexError` from `self.actors[env_id]` with an out-of-range id. -/
  | indexError : PollError
  /-- `TypeError` from subscripting a non-dict action payload. -/
  | typeError : PollError

/-- `{agent_id: 0 for agent_id in ob.keys()}` — reward synthesis for reset
outcomes; raises `AttributeError` when `ob` is not a dict. -/
def synthRewards (ob : RVal) : Except PollError RVal :=
  match ob with
  | .vdict d => .ok (.vdict (d.foldl (fun acc p => setKey p.1 (.vint 0) acc) []))
  | _ => .error .attributeError

/-- The normalization performed inline in `poll()` when
`make_env_creates_actors` is true (lines 193–255): dispatch on tuple arity,
wrap single-agent fields under `_DUMMY_AGENT_ID`, and synthesize dummy
reward/terminated/truncated for reset outcomes (`rew is None` fixup). -/
def normalizeAddressable (multiagent : Bool) (ret : RVal) :
    Except PollError Record := do
  -- mirrors `rew, terminated, truncated, info = None, None, None, None`
  let (ob, rew?, terminated?, truncated?, info?) ←
    if multiagent then
      match ret with
      | .vtup [o, r, t, tr, i] =>
          pure (o, some r, some t, some tr, some i)
      | .vtup [o, i] =>
          pure (o, none, none, none, some i)
      | .vtup _ => .error .formatViolation
      | _ => .error .singleValueReset
    else
      match ret with
      | .vtup [o, r, t, tr, i] =>
          pure (RVal.vdict [(.dummy, o)], some (RVal.vdict [(.dummy, r)]),
            some (RVal.vdict [(.dummy, t), (.all, t)]),
            some (RVal.vdict [(.dummy, tr), (.all, tr)]),
            some (RVal.vdict [(.dummy, i)]))
      | .vtup [o, i] =>
          pure (RVal.vdict [(.dummy, o)], none, none, none,
            some (RVal.vdict [(.dummy, i)]))
      | .vtup _ => .error .formatViolation
      | _ => .error .singleValueReset
  -- `if rew is None:` — reset fixup
  match rew? with
  | none => do
      let rew ← synthRewards ob
      pure ⟨ob, rew, .vdict [(.all, .vbool false)], .vdict [(.all, .vbool false)],
        info?.getD (.vdict [])⟩
  | some rew =>
      pure ⟨ob, rew, terminated?.getD (.vdict []), truncated?.getD (.vdict []),
        info?.getD (.vdict [])⟩

/-- Wrapped-worker path (line 261): `ob, rew, terminated, truncated, info =
ret`, a plain 5-tuple unpack. -/
def unpackWrapped (ret : RVal) : Except PollError Record :=
  match ret with
  | .vtup [o, r, t, tr, i] => .ok ⟨o, r, t, tr, i⟩
  | _ => .error .unpackError

/-- The pseudo-result synthesized on a fault when restarts are enabled
(lines 181–187): `(e, {}, {"__all__": True}, {"__all__": False}, {})`. -/
def faultSynth (e : RVal) : RVal :=
  .vtup [e, .vdict [], .vdict [(.all, .vbool true)],
    .vdict [(.all, .vbool false)], .vdict []]

-- sanity checks on the normalizer
example :
    normalizeAddressable false (.vtup [.obj 1, .vfloat 2, .vbool true, .vbool false, .obj 3]) =
      .ok ⟨.vdict [(.dummy, .obj 1)], .vdict [(.dummy, .vfloat 2)],
        .vdict [(.dummy, .vbool true), (.all, .vbool true)],
        .vdict [(.dummy, .vbool false), (.all, .vbool false)],
        .vdict [(.dummy, .obj 3)]⟩ := rfl

example :
    normalizeAddressable true (.vtup [.vdict [(.name "a", .obj 1)], .vdict []]) =
      .ok ⟨.vdict [(.name "a", .obj 1)], .vdict [(.name "a", .vint 0)],
        .vdict [(.all, .vbool false)], .vdict [(.all, .vbool false)], .vdict []⟩ := rfl

example :
    normalizeAddressable true (.vtup [.obj 0, .obj 1, .obj 2]) = .error .formatViolation := rfl

/-! ## Dispatcher state and operations -/

/-- The mutable state of a `RemoteBaseEnv` instance: the construction flags,
the worker pool (`actors`, opaque actor identities per slot), the pending
table (`pending`, task-handle ↦ actor identity, in insertion order), and
fresh-identity counters for handles and newly built actors. -/
structure DState where
  multiagent : Bool
  makeEnvCreatesActors : Bool
  restartOnFailure : Bool
  actors : List Nat
  pending : List (Nat × Nat)
  nextHandle : Nat
  nextId : Nat
deriving DecidableEq, Repr

/-- The outcome of resolving a task handle with `ray.get`: a value or a
raised fault. -/
inductive TaskOutcome where
  | val : RVal → TaskOutcome
  | fault : RVal → TaskOutcome

/-- `self.pending.pop(obj_ref)`: remove the binding of handle `h` and
return its actor, or `none` (`KeyError`) when absent. -/
def removePending (h : Nat) : List (Nat × Nat) → Option (Nat × List (Nat × Nat))
  | [] => none
  | (h', a) :: rest =>
      if h' = h then some (a, rest)
      else (removePending h rest).map (fun p => (p.1, (h', a) :: p.2))

/-- `try_restart(env_id)` (lines 304–320): fire-and-forget close and
terminate of the old actor, then replace the slot with a freshly built
actor.  Note: `self.pending` is not touched. -/
def tryRestartModel (envId : Nat) (st : DState) : DState :=
  if envId < st.actors.length then
    { st with actors := st.actors.set envId st.nextId, nextId := st.nextId + 1 }
  else st

/-- `env_ids.add(env_id)`: Python set insertion. -/
def addEnvId (i : Nat) (l : List Nat) : List Nat :=
  if i ∈ l then l else l ++ [i]

/-- The six mappings built by `poll()`, each keyed by env_id. -/
structure Batch where
  obs : List (Nat × RVal)
  rewards : List (Nat × RVal)
  terminateds : List (Nat × RVal)
  truncateds : List (Nat × RVal)
  infos : List (Nat × RVal)
  extras : List (Nat × RVal)

/-- `obs[env_id] = ob; rewards[env_id] = rew; ...` (lines 262–266). -/
def accAdd (envId : Nat) (r : Record) (b : Batch) : Batch :=
  { obs := setKey envId r.ob b.obs,
    rewards := setKey envId r.rew b.rewards,
    terminateds := setKey envId r.terminated b.terminateds,
    truncateds := setKey envId r.truncated b.truncateds,
    infos := setKey envId r.info b.infos,
    extras := b.extras }

/-- The empty batch (`obs, rewards, ... = {}, {}, {}, {}, {}` plus the
literal `{}` returned as `extras`). -/
def emptyBatch : Batch := ⟨[], [], [], [], [], []⟩

/-- Processing of one ready handle inside `poll()`'s loop (lines 160–261):
pop the handle from the pending table, recover the worker slot with
`self.actors.index(actor)`, add the slot to `env_ids`, resolve the handle
(applying the failure/restart policy on a fault), and normalize the result.
Returns the state after the step's mutations and either `(env_id, record)`
or the raised error (paired with the env_id when it was computed before the
raise). -/
def processHandle (resolve : Nat → TaskOutcome) (h : Nat) (st : DState) :
    DState × Except (Option Nat × PollError) (Nat × Record) :=
  match removePending h st.pending with
  | none => (st, .error (none, .keyError))
  | some (actor, pending') =>
    let st1 : DState := { st with pending := pending' }
    match st1.actors.findIdx? (· = actor) with
    | none => (st1, .error (none, .valueError))
    | some envId =>
      match resolve h with
      | .fault e =>
        if st1.restartOnFailure then
          -- restart the worker, then normalize the synthesized 5-tuple
          let st2 := tryRestartModel envId st1
          match (if st2.makeEnvCreatesActors then
                   normalizeAddressable st2.multiagent (faultSynth e)
                 else unpackWrapped (faultSynth e)) with
          | .error er => (st2, .error (some envId, er))
          | .ok rec => (st2, .ok (envId, rec))
        else
          (st1, .error (some envId, .transientFault e))
      | .val ret =>
        match (if st1.makeEnvCreatesActors then
                 normalizeAddressable st1.multiagent ret
               else unpackWrapped ret) with
        | .error er => (st1, .error (some envId, er))
        | .ok rec => (st1, .ok (envId, rec))

/-- The body of the `for obj_ref in ready:` loop of `poll()` (lines
160–266), processing the ready handles in order.  A raised exception
stops the loop immediately but keeps the state mutations already made
(pops from the pending table, restarts).  Returns the final state, the
`env_ids` set the loop accumulated, and either the batch or the raised
error. -/
def pollLoop (resolve : Nat → TaskOutcome) :
    List Nat → DState → Batch → List Nat →
    DState × List Nat × Except PollError Batch
  | [], st, acc, envIds => (st, envIds, .ok acc)
  | h :: rest, st, acc, envIds =>
    match processHandle resolve h st with
    | (st1, .error (oid, er)) =>
        (st1, oid.elim envIds (fun i => addEnvId i envIds), .error er)
    | (st1, .ok (envId, rec)) =>
        pollLoop resolve rest st1 (accAdd envId rec acc) (addEnvId envId envIds)

/-- `poll()` (lines 135–269), modelled relative to one wait round: `ready`
is the nonempty list of handles that `ray.wait` eventually returned, and
`resolve` gives each handle's `ray.get` outcome. -/
def pollModel (resolve : Nat → TaskOutcome) (ready : List Nat) (st : DState) :
    DState × List Nat × Except PollError Batch :=
  pollLoop resolve ready st emptyBatch []

/-- Submit a task to actor `a`: a fresh handle is recorded in the pending
table (`self.pending[obj_ref] = actor`). -/
def submitTo (a : Nat) (st : DState) : DState :=
  { st with
    pending := setKey st.nextHandle a st.pending
    nextHandle := st.nextHandle + 1 }

/-- `send_actions(action_dict)` (lines 272–284): for each `(env_id,
actions)` entry, look up the actor, unwrap the bare action when the pool
holds addressable single-agent workers, and submit a step task.  A raised
exception keeps the submissions already made. -/
def sendActionsLoop : List (Nat × RVal) → DState → DState × Except PollError Unit
  | [], st => (st, .ok ())
  | (envId, actions) :: rest, st =>
    match st.actors.get? envId with
    | none => (st, .error .indexError)
    | some a =>
      if !st.multiagent && st.makeEnvCreatesActors then
        -- `actor.step.remote(actions[_DUMMY_AGENT_ID])`
        match actions with
        | .vdict d =>
          match getKey AgentKey.dummy d with
          | some _ => sendActionsLoop rest (submitTo a st)
          | none => (st, .error .keyError)
        | _ => (st, .error .typeError)
      else
        -- `actor.step.remote(actions)`
        sendActionsLoop rest (submitTo a st)

/-- `ASYNC_RESET_RETURN`, imported from `base_env`. -/
def asyncResetReturn : RVal := .sentinel

/-- `try_reset(env_id, seed, options)` (lines 287–301): submit a reset task
and return the `(ASYNC_RESET_RETURN, ASYNC_RESET_RETURN)` sentinel pair. -/
def tryResetModel (envId : Nat) (st : DState) :
    DState × Except PollError (RVal × RVal) :=
  match st.actors.get? envId with
  | none => (st, .error .indexError)
  | some a => (submitTo a st, .ok (asyncResetReturn, asyncResetReturn))

/-- An environment (or already-addressable actor) supplied via
`existing_envs`, with an opaque identity. -/
inductive SuppliedEnv where
  | actorHandle : Nat → SuppliedEnv
  | plainEnv : Nat → SuppliedEnv
deriving DecidableEq, Repr

/-- The identity of a supplied environment. -/
def SuppliedEnv.ident : SuppliedEnv → Nat
  | .actorHandle n => n
  | .plainEnv n => n

/-- `isinstance(existing_envs[0], ray.actor.ActorHandle)`. -/
def SuppliedEnv.isActorHandle : SuppliedEnv → Bool
  | .actorHandle _ => true
  | .plainEnv _ => false

/-- `__init__` (lines 32–132): decide the addressable mode from the first
supplied environment; either reuse the supplied actor handles and extend
with newly built actors up to `num_envs`, or discard the supplied plain
envs and build `num_envs` fresh actors; then seed the pending table with
one reset task per actor.  Fresh actor identities are `startId`,
`startId+1`, … -/
def initModel (numEnvs : Nat) (multiagent restart : Bool)
    (existing : List SuppliedEnv) (startId : Nat) : DState :=
  let addressable := match existing with
    | e :: _ => e.isActorHandle
    | [] => false
  let (actors, nextId) :=
    if addressable then
      (existing.map SuppliedEnv.ident ++
        (List.range (numEnvs - existing.length)).map (fun j => startId + j),
       startId + (numEnvs - existing.length))
    else
      ((List.range numEnvs).map (fun j => startId + j), startId + numEnvs)
  { multiagent := multiagent, makeEnvCreatesActors := addressable,
    restartOnFailure := restart, actors := actors,
    pending := actors.enum, nextHandle := actors.length, nextId := nextId }

/-! ## The wrapper actor classes (lines 393–462) -/

/-- `_RemoteSingleAgentEnv.reset` (lines 435–444): wrap `obs_and_info[0]` /
`obs_and_info[1]` under `_DUMMY_AGENT_ID`, zero reward, and
`{"__all__": False}` terminated/truncated. -/
def remoteSingleAgentReset (obsAndInfo : RVal) : Except PollError Record :=
  match obsAndInfo with
  | .vtup (o :: i :: _) =>
      .ok ⟨.vdict [(.dummy, o)], .vdict [(.dummy, .vfloat 0)],
        .vdict [(.all, .vbool false)], .vdict [(.all, .vbool false)],
        .vdict [(.dummy, i)]⟩
  | .vtup _ => .error .indexError
  | _ => .error .typeError

/-- `_RemoteSingleAgentEnv.step` (lines 446–454): wrap each of the five
results under `_DUMMY_AGENT_ID`, then set `terminated["__all__"]` and
`truncated["__all__"]` from the dummy agent's flags. -/
def remoteSingleAgentStep (results : RVal) : Except PollError Record :=
  match results with
  | .vtup [o, r, t, tr, i] =>
      .ok ⟨.vdict [(.dummy, o)], .vdict [(.dummy, r)],
        .vdict [(.dummy, t), (.all, t)], .vdict [(.dummy, tr), (.all, tr)],
        .vdict [(.dummy, i)]⟩
  | .vtup _ => .error .unpackError
  | _ => .error .typeError

/-- The state of a `_RemoteMultiAgentEnv` actor: the accumulated
`self.agent_ids` set (`set()` at construction). -/
structure MAEnvState where
  agentIds : List AgentKey
deriving DecidableEq, Repr

/-- `self.agent_ids = set()` in `_RemoteMultiAgentEnv.__init__`. -/
def maInit : MAEnvState := ⟨[]⟩

/-- Python set insertion for agent ids. -/
def addAgentId (a : AgentKey) (l : List AgentKey) : List AgentKey :=
  if a ∈ l then l else l ++ [a]

/-- `_RemoteMultiAgentEnv.reset` (lines 401–411): unpack the wrapped env's
`(obs, info)`, record every observation key in `self.agent_ids`, synthesize
zero rewards for those keys, and fix terminated/truncated to
`{"__all__": False}`. -/
def maReset (st : MAEnvState) (resetResult : RVal) :
    Except PollError (MAEnvState × Record) :=
  match resetResult with
  | .vtup [obs, info] =>
      match obs with
      | .vdict d =>
          let st' : MAEnvState := ⟨d.foldl (fun l p => addAgentId p.1 l) st.agentIds⟩
          let rew := RVal.vdict (d.foldl (fun acc p => setKey p.1 (RVal.vfloat 0) acc) [])
          .ok (st', ⟨obs, rew, .vdict [(.all, .vbool false)],
            .vdict [(.all, .vbool false)], info⟩)
      | _ => .error .attributeError
  | _ => .error .unpackError

/-- `_RemoteMultiAgentEnv.step` (lines 413–414): pure pass-through of the
wrapped env's step result; `self.agent_ids` is not touched. -/
def maStep (st : MAEnvState) (stepResult : RVal) : MAEnvState × RVal :=
  (st, stepResult)

/-- `RemoteBaseEnv.get_agent_ids` (lines 385–390): query worker 0's
accumulated agent-id set when multi-agent, else the singleton
`{_DUMMY_AGENT_ID}`. -/
def getAgentIdsModel (multiagent : Bool) (worker0 : MAEnvState) : List AgentKey :=
  if multiagent then worker0.agentIds else [AgentKey.dummy]

/-- One remote call served by a `_RemoteMultiAgentEnv` actor, carrying the
wrapped environment's raw return value for that call. -/
inductive MACall where
  | resetCall : RVal → MACall
  | stepCall : RVal → MACall

/-- Run a sequence of calls against a `_RemoteMultiAgentEnv` actor.  A call
that raises (bad shape) leaves `self.agent_ids` untouched. -/
def runMA : List MACall → MAEnvState → MAEnvState
  | [], st => st
  | (MACall.resetCall r) :: rest, st =>
      match maReset st r with
      | .ok (st', _) => runMA rest st'
      | .error _ => runMA rest st
  | (MACall.stepCall r) :: rest, st => runMA rest (maStep st r).1

/-- The observation keys of a completed (non-raising) `reset()` call; `[]`
for step calls and for reset calls that raise. -/
def resetObsKeys : MACall → List AgentKey
  | MACall.resetCall (RVal.vtup [RVal.vdict d, _]) => d.map (fun p => p.1)
  | _ => []

/-! ## The dispatcher as a state machine (for reachability invariants) -/

/-- One call on the operational surface of the dispatcher, together with the
external inputs it consumes: `poll` takes the wait round's ready handles and
their resolutions; `send_actions` takes the action dict (as an association
list keyed by env_id); `try_reset` and `try_restart` take the env_id. -/
inductive DCall where
  | pollC : (Nat → TaskOutcome) → List Nat → DCall
  | sendC : List (Nat × RVal) → DCall
  | resetC : Nat → DCall
  | restartC : Nat → DCall

/-- The state reached after a call (exceptions raised by the call leave the
mutations already made in place, as in the Python original). -/
def applyCall : DCall → DState → DState
  | .pollC resolve ready, st => (pollModel resolve ready st).1
  | .sendC acts, st => (sendActionsLoop acts st).1
  | .resetC envId, st => (tryResetModel envId st).1
  | .restartC envId, st => tryRestartModel envId st

/-- The caller discipline stated by the spec: no second task is submitted
for a worker while its first is still outstanding.  `send_actions` and
`try_reset` submit; `poll` and `try_restart` do not. -/
def disciplined (st : DState) : DCall → Prop
  | .pollC _ _ => True
  | .sendC acts => (acts.map Prod.fst).Nodup ∧
      ∀ p ∈ acts, ∀ a, st.actors.get? p.1 = some a → ∀ q ∈ st.pending, q.2 ≠ a
  | .resetC envId =>
      ∀ a, st.actors.get? envId = some a → ∀ q ∈ st.pending, q.2 ≠ a
  | .restartC _ => True

/-- Well-formedness of the construction inputs: the supplied workers are
distinct objects and their identities precede the fresh-identity counter. -/
def GoodInit (existing : List SuppliedEnv) (startId : Nat) : Prop :=
  (existing.map SuppliedEnv.ident).Nodup ∧
  ∀ e ∈ existing, e.ident < startId

/-- The dispatcher states reachable from a construction through disciplined
call sequences. -/
inductive Reach : DState → Prop where
  | init (numEnvs : Nat) (ma r : Bool) (existing : List SuppliedEnv)
      (startId : Nat) : GoodInit existing startId →
      Reach (initModel numEnvs ma r existing startId)
  | step (st : DState) (c : DCall) : Reach st → disciplined st c →
      Reach (applyCall c st)

/-- The bookkeeping invariant of the dispatcher state: distinct live actors,
identity counters dominating every stored identity, and at most one pending
entry per live actor. -/
structure DInv (st : DState) : Prop where
  actorsNodup : st.actors.Nodup
  actorsLt : ∀ a ∈ st.actors, a < st.nextId
  handlesLt : ∀ p ∈ st.pending, p.1 < st.nextHandle
  targetsLt : ∀ p ∈ st.pending, p.2 < st.nextId
  atMostOne : ∀ a ∈ st.actors, st.pending.countP (fun p => p.2 == a) ≤ 1

/-! ## Helper lemmas -/

lemma setKey_map_fst {κ α : Type} [DecidableEq κ] (k : κ) (v : α)
    (l : List (κ × α)) :
    (setKey k v l).map Prod.fst =
      if k ∈ l.map Prod.fst then l.map Prod.fst else l.map Prod.fst ++ [k] := by
  induction l with
  | nil => simp [setKey]
  | cons p rest ih =>
    obtain ⟨k', v'⟩ := p
    by_cases hk : k' = k
    · subst hk
      simp [setKey]
    · simp only [setKey, if_neg hk, List.map_cons]
      rw [ih]
      by_cases hm : k ∈ rest.map Prod.fst
      · simp [hm, List.mem_cons]
      · simp [hm, List.mem_cons, Ne.symm hk]

lemma setKey_append_of_not_mem {κ α : Type} [DecidableEq κ] (k : κ) (v : α)
    (l : List (κ × α)) (hk : k ∉ l.map Prod.fst) :
    setKey k v l = l ++ [(k, v)] := by
  induction l with
  | nil => simp [setKey]
  | cons p rest ih =>
    obtain ⟨k', v'⟩ := p
    simp only [List.map_cons, List.mem_cons] at hk
    push_neg at hk
    simp [setKey, Ne.symm hk.1, ih hk.2]

lemma removePending_sublist (h : Nat) :
    ∀ (l l' : List (Nat × Nat)) (a : Nat),
      removePending h l = some (a, l') → l'.Sublist l := by
  intro l
  induction l with
  | nil => intro l' a hrm; simp [removePending] at hrm
  | cons p rest ih =>
    intro l' a hrm
    obtain ⟨h', b⟩ := p
    by_cases hh : h' = h
    · subst hh
      simp [removePending] at hrm
      obtain ⟨rfl, rfl⟩ := hrm
      exact List.sublist_cons_self _ _
    · simp only [removePending, if_neg hh] at hrm
      rcases hrec : removePending h rest with _ | ⟨c, rest'⟩
      · rw [hrec] at hrm; simp at hrm
      · rw [hrec] at hrm
        simp at hrm
        obtain ⟨rfl, rfl⟩ := hrm
        exact (ih rest' c hrec).cons₂ _

lemma removePending_mem (h : Nat) :
    ∀ (l l' : List (Nat × Nat)) (a : Nat),
      removePending h l = some (a, l') → (h, a) ∈ l := by
  intro l
  induction l with
  | nil => intro l' a hrm; simp [removePending] at hrm
  | cons p rest ih =>
    intro l' a hrm
    obtain ⟨h', b⟩ := p
    by_cases hh : h' = h
    · subst hh
      simp [removePending] at hrm
      obtain ⟨rfl, rfl⟩ := hrm
      exact List.mem_cons_self _ _
    · simp only [removePending, if_neg hh] at hrm
      rcases hrec : removePending h rest with _ | ⟨c, rest'⟩
      · rw [hrec] at hrm; simp at hrm
      · rw [hrec] at hrm
        simp at hrm
        obtain ⟨rfl, rfl⟩ := hrm
        exact List.mem_cons_of_mem _ (ih _ _ hrec)

lemma removePending_not_mem_of_nodup (h : Nat) :
    ∀ (l l' : List (Nat × Nat)) (a : Nat),
      (l.map Prod.fst).Nodup →
      removePending h l = some (a, l') → h ∉ l'.map Prod.fst := by
  intro l
  induction l with
  | nil => intro l' a _ hrm; simp [removePending] at hrm
  | cons p rest ih =>
    intro l' a hnd hrm
    obtain ⟨h', b⟩ := p
    simp only [List.map_cons, List.nodup_cons] at hnd
    by_cases hh : h' = h
    · subst hh
      simp [removePending] at hrm
      obtain ⟨rfl, rfl⟩ := hrm
      exact hnd.1
    · simp only [removePending, if_neg hh] at hrm
      rcases hrec : removePending h rest with _ | ⟨c, rest'⟩
      · rw [hrec] at hrm; simp at hrm
      · rw [hrec] at hrm
        simp at hrm
        obtain ⟨rfl, rfl⟩ := hrm
        simp only [List.map_cons, List.mem_cons]
        push_neg
        exact ⟨Ne.symm hh, ih _ _ hnd.2 hrec⟩

lemma pollLoop_nil (resolve : Nat → TaskOutcome) (st : DState) (acc : Batch)
    (ids : List Nat) : pollLoop resolve [] st acc ids = (st, ids, .ok acc) := rfl

lemma pollLoop_cons (resolve : Nat → TaskOutcome) (h : Nat) (rest : List Nat)
    (st : DState) (acc : Batch) (ids : List Nat) :
    pollLoop resolve (h :: rest) st acc ids =
      match processHandle resolve h st with
      | (st1, .error (oid, er)) =>
          (st1, oid.elim ids (fun i => addEnvId i ids), .error er)
      | (st1, .ok (envId, rec)) =>
          pollLoop resolve rest st1 (accAdd envId rec acc) (addEnvId envId ids) := rfl

lemma pollLoop_ok_keys (resolve : Nat → TaskOutcome) :
    ∀ (ready : List Nat) (st : DState) (acc : Batch) (ids : List Nat),
      acc.obs.map Prod.fst = ids →
      acc.rewards.map Prod.fst = ids →
      acc.terminateds.map Prod.fst = ids →
      acc.truncateds.map Prod.fst = ids →
      acc.infos.map Prod.fst = ids →
      ∀ st' ids' b, pollLoop resolve ready st acc ids = (st', ids', .ok b) →
        b.obs.map Prod.fst = ids' ∧ b.rewards.map Prod.fst = ids' ∧
        b.terminateds.map Prod.fst = ids' ∧ b.truncateds.map Prod.fst = ids' ∧
        b.infos.map Prod.fst = ids' ∧ b.extras = acc.extras := by
  intro ready
  induction ready with
  | nil =>
    intro st acc ids h1 h2 h3 h4 h5 st' ids' b hp
    rw [pollLoop_nil] at hp
    simp only [Prod.mk.injEq] at hp
    obtain ⟨-, rfl, hb⟩ := hp
    cases hb
    exact ⟨h1, h2, h3, h4, h5, rfl⟩
  | cons h rest ih =>
    intro st acc ids h1 h2 h3 h4 h5 st' ids' b hp
    rw [pollLoop_cons] at hp
    rcases hph : processHandle resolve h st with ⟨st1, (⟨oid, er⟩ | ⟨envId, rec⟩)⟩
    · rw [hph] at hp
      simp at hp
    · rw [hph] at hp
      simp only at hp
      refine ih st1 (accAdd envId rec acc) (addEnvId envId ids) ?_ ?_ ?_ ?_ ?_
        st' ids' b hp
      all_goals
        simp [accAdd, setKey_map_fst, addEnvId, h1, h2, h3, h4, h5]

lemma pollLoop_append (resolve : Nat → TaskOutcome) (l1 l2 : List Nat) :
    ∀ (st : DState) (acc : Batch) (ids : List Nat),
      pollLoop resolve (l1 ++ l2) st acc ids =
        match pollLoop resolve l1 st acc ids with
        | (st1, ids1, Except.ok acc1) => pollLoop resolve l2 st1 acc1 ids1
        | (st1, ids1, Except.error er) => (st1, ids1, Except.error er) := by
  induction l1 with
  | nil => intro st acc ids; rfl
  | cons h rest ih =>
    intro st acc ids
    rw [List.cons_append, pollLoop_cons, pollLoop_cons]
    rcases hph : processHandle resolve h st with ⟨st1, (⟨oid, er⟩ | ⟨envId, rec⟩)⟩
    · simp
    · simp only
      exact ih st1 (accAdd envId rec acc) (addEnvId envId ids)

lemma tryRestartModel_fields (envId : Nat) (st : DState) :
    (tryRestartModel envId st).multiagent = st.multiagent ∧
    (tryRestartModel envId st).makeEnvCreatesActors = st.makeEnvCreatesActors ∧
    (tryRestartModel envId st).restartOnFailure = st.restartOnFailure ∧
    (tryRestartModel envId st).pending = st.pending ∧
    (tryRestartModel envId st).nextHandle = st.nextHandle := by
  unfold tryRestartModel
  split <;> simp

lemma tryRestartModel_multiagent (envId : Nat) (st : DState) :
    (tryRestartModel envId st).multiagent = st.multiagent :=
  (tryRestartModel_fields envId st).1

lemma tryRestartModel_makeEnvCreatesActors (envId : Nat) (st : DState) :
    (tryRestartModel envId st).makeEnvCreatesActors = st.makeEnvCreatesActors :=
  (tryRestartModel_fields envId st).2.1

lemma tryRestartModel_restartOnFailure (envId : Nat) (st : DState) :
    (tryRestartModel envId st).restartOnFailure = st.restartOnFailure :=
  (tryRestartModel_fields envId st).2.2.1

/-- The state after processing one ready handle is the input state (pop
failed), the input state minus the popped entry, or that state after a
worker restart. -/
lemma processHandle_state (resolve : Nat → TaskOutcome) (h : Nat) (st : DState) :
    (processHandle resolve h st).1 = st ∨
    ∃ a pending', removePending h st.pending = some (a, pending') ∧
      ((processHandle resolve h st).1 = { st with pending := pending' } ∨
       ∃ envId, (processHandle resolve h st).1 =
         tryRestartModel envId { st with pending := pending' }) := by
  unfold processHandle
  rcases hrm : removePending h st.pending with _ | ⟨a, pending'⟩
  · left; rfl
  · right
    refine ⟨a, pending', rfl, ?_⟩
    simp only
    rcases hidx : ({ st with pending := pending' } : DState).actors.findIdx? (· = a)
      with _ | envId
    · simp [hidx]
    · dsimp only
      rcases hres : resolve h with ret | e
      · dsimp only
        split
        · left; rfl
        · left; rfl
      · dsimp only
        by_cases hrf : st.restartOnFailure = true
        · simp only [hrf, if_true]
          split
          · exact Or.inr ⟨envId, rfl⟩
          · exact Or.inr ⟨envId, rfl⟩
        · simp only [hrf, if_false]
          left; rfl

lemma processHandle_flags (resolve : Nat → TaskOutcome) (h : Nat) (st : DState) :
    (processHandle resolve h st).1.multiagent = st.multiagent ∧
    (processHandle resolve h st).1.makeEnvCreatesActors = st.makeEnvCreatesActors ∧
    (processHandle resolve h st).1.restartOnFailure = st.restartOnFailure := by
  rcases processHandle_state resolve h st with hst | ⟨a, p', hrm, hst | ⟨envId, hst⟩⟩ <;>
    rw [hst] <;>
    simp [tryRestartModel_multiagent, tryRestartModel_makeEnvCreatesActors,
      tryRestartModel_restartOnFailure]

lemma pollLoop_flags (resolve : Nat → TaskOutcome) :
    ∀ (ready : List Nat) (st : DState) (acc : Batch) (ids : List Nat),
      (pollLoop resolve ready st acc ids).1.multiagent = st.multiagent ∧
      (pollLoop resolve ready st acc ids).1.makeEnvCreatesActors =
        st.makeEnvCreatesActors ∧
      (pollLoop resolve ready st acc ids).1.restartOnFailure =
        st.restartOnFailure := by
  intro ready
  induction ready with
  | nil => intro st acc ids; rw [pollLoop_nil]; exact ⟨rfl, rfl, rfl⟩
  | cons h rest ih =>
    intro st acc ids
    rw [pollLoop_cons]
    have hf := processHandle_flags resolve h st
    rcases hph : processHandle resolve h st with ⟨st1, (⟨oid, er⟩ | ⟨envId, rec⟩)⟩ <;>
      rw [hph] at hf
    · simpa using hf
    · simp only
      have := ih st1 (accAdd envId rec acc) (addEnvId envId ids)
      exact ⟨this.1.trans hf.1, this.2.1.trans hf.2.1, this.2.2.trans hf.2.2⟩

/-! ## Claim theorems -/

/-- C3: for every `poll()` call that returns, the key sets of the five
returned mappings obs, reward, terminated, truncated and info are pairwise
identical and equal exactly to the set of env_ids whose pending task
handles resolved in that call (the `env_ids` set the loop accumulates),
and the sixth mapping, extras, is always empty. -/
theorem poll_batch_keysets (resolve : Nat → TaskOutcome) (ready : List Nat)
    (st st' : DState) (envIds : List Nat) (b : Batch)
    (hp : pollModel resolve ready st = (st', envIds, .ok b)) :
    b.obs.map Prod.fst = envIds ∧
    b.rewards.map Prod.fst = envIds ∧
    b.terminateds.map Prod.fst = envIds ∧
    b.truncateds.map Prod.fst = envIds ∧
    b.infos.map Prod.fst = envIds ∧
    b.extras = [] :=
  pollLoop_ok_keys resolve ready st emptyBatch [] rfl rfl rfl rfl rfl
    st' envIds b hp

/-- Witness for C3 at a concrete two-worker poll in wrapped mode. -/
theorem poll_batch_keysets_witness :
    pollModel (fun _ => TaskOutcome.val (.vtup [.obj 1, .vdict [],
        .vdict [(.all, .vbool false)], .vdict [(.all, .vbool false)],
        .vdict []]))
      [0, 1] ⟨true, false, false, [10, 11], [(0, 10), (1, 11)], 2, 20⟩ =
      (⟨true, false, false, [10, 11], [], 2, 20⟩, [0, 1],
        .ok ⟨[(0, .obj 1), (1, .obj 1)],
          [(0, .vdict []), (1, .vdict [])],
          [(0, .vdict [(.all, .vbool false)]), (1, .vdict [(.all, .vbool false)])],
          [(0, .vdict [(.all, .vbool false)]), (1, .vdict [(.all, .vbool false)])],
          [(0, .vdict []), (1, .vdict [])], []⟩) ∧
    ([(0, RVal.obj 1), (1, RVal.obj 1)].map Prod.fst = [0, 1] ∧
     [(0, RVal.vdict []), (1, RVal.vdict [])].map Prod.fst = [0, 1] ∧
     [(0, RVal.vdict [(.all, .vbool false)]),
      (1, RVal.vdict [(.all, .vbool false)])].map Prod.fst = [0, 1] ∧
     [(0, RVal.vdict [(.all, .vbool false)]),
      (1, RVal.vdict [(.all, .vbool false)])].map Prod.fst = [0, 1] ∧
     [(0, RVal.vdict []), (1, RVal.vdict [])].map Prod.fst = [0, 1] ∧
     ([] : List (Nat × RVal)) = []) :=
  ⟨rfl, poll_batch_keysets
    (fun _ => TaskOutcome.val (.vtup [.obj 1, .vdict [],
      .vdict [(.all, .vbool false)], .vdict [(.all, .vbool false)], .vdict []]))
    [0, 1] ⟨true, false, false, [10, 11], [(0, 10), (1, 11)], 2, 20⟩
    ⟨true, false, false, [10, 11], [], 2, 20⟩ [0, 1]
    ⟨[(0, .obj 1), (1, .obj 1)],
      [(0, .vdict []), (1, .vdict [])],
      [(0, .vdict [(.all, .vbool false)]), (1, .vdict [(.all, .vbool false)])],
      [(0, .vdict [(.all, .vbool false)]), (1, .vdict [(.all, .vbool false)])],
      [(0, .vdict []), (1, .vdict [])], []⟩ rfl⟩

/-- C4: in single-agent mode, a raw 5-tuple step outcome `(o, r, t, tr, i)`
is normalized — by `poll()` for addressable workers and by
`_RemoteSingleAgentEnv.step` for wrapped workers — to
`obs = {AGENT: o}`, `reward = {AGENT: r}`,
`terminated = {AGENT: t, "__all__": t}`,
`truncated = {AGENT: tr, "__all__": tr}`, `info = {AGENT: i}`. -/
theorem singleagent_step_normalization (o r t tr i : RVal) :
    normalizeAddressable false (.vtup [o, r, t, tr, i]) =
      .ok ⟨.vdict [(.dummy, o)], .vdict [(.dummy, r)],
        .vdict [(.dummy, t), (.all, t)], .vdict [(.dummy, tr), (.all, tr)],
        .vdict [(.dummy, i)]⟩ ∧
    remoteSingleAgentStep (.vtup [o, r, t, tr, i]) =
      .ok ⟨.vdict [(.dummy, o)], .vdict [(.dummy, r)],
        .vdict [(.dummy, t), (.all, t)], .vdict [(.dummy, tr), (.all, tr)],
        .vdict [(.dummy, i)]⟩ :=
  ⟨rfl, rfl⟩

/-- C2: when `restart_on_failure` is false and resolving a ready handle
raises a fault, `poll()` re-raises that original fault and returns no
batch, discarding the results already normalized earlier in the same wait
round (and never reaching the handles after the faulting one). -/
theorem poll_norestart_fault_raises (resolve : Nat → TaskOutcome)
    (pre post : List Nat) (h : Nat) (st st1 : DState) (ids1 : List Nat)
    (acc1 : Batch) (e : RVal) (a envId : Nat) (pending' : List (Nat × Nat))
    (hnorestart : st.restartOnFailure = false)
    (hpre : pollLoop resolve pre st emptyBatch [] = (st1, ids1, .ok acc1))
    (hpop : removePending h st1.pending = some (a, pending'))
    (hidx : st1.actors.findIdx? (· = a) = some envId)
    (hres : resolve h = .fault e) :
    (pollModel resolve (pre ++ h :: post) st).2.2 =
      .error (.transientFault e) := by
  have hrf1 : st1.restartOnFailure = false := by
    have hfl := pollLoop_flags resolve pre st emptyBatch []
    rw [hpre] at hfl
    exact hfl.2.2.trans hnorestart
  have hph : processHandle resolve h st1 =
      ({ st1 with pending := pending' },
        .error (some envId, .transientFault e)) := by
    unfold processHandle
    rw [hpop]
    dsimp only
    rw [hidx, hres]
    dsimp only
    rw [hrf1]
    simp
  unfold pollModel
  rw [pollLoop_append, hpre]
  dsimp only
  rw [pollLoop_cons, hph]

/-- Witness for C2: pool of 3, envs 0 and 2 ready and fine, env 1's task
faulted, restarts disabled — `poll()` raises the original fault. -/
theorem poll_norestart_fault_raises_witness :
    ((⟨true, false, false, [10, 11, 12], [(0, 10), (1, 11), (2, 12)], 3, 20⟩ :
        DState)).restartOnFailure = false ∧
    pollLoop (fun h => if h = 1 then TaskOutcome.fault (.exn 9)
        else TaskOutcome.val (.vtup [.obj 1, .vdict [],
          .vdict [(.all, .vbool false)], .vdict [(.all, .vbool false)],
          .vdict []]))
      [0] ⟨true, false, false, [10, 11, 12], [(0, 10), (1, 11), (2, 12)], 3, 20⟩
      emptyBatch [] =
      (⟨true, false, false, [10, 11, 12], [(1, 11), (2, 12)], 3, 20⟩, [0],
        .ok ⟨[(0, .obj 1)], [(0, .vdict [])],
          [(0, .vdict [(.all, .vbool false)])],
          [(0, .vdict [(.all, .vbool false)])], [(0, .vdict [])], []⟩) ∧
    removePending 1 [(1, 11), (2, 12)] = some (11, [(2, 12)]) ∧
    ([10, 11, 12] : List Nat).findIdx? (· = 11) = some 1 ∧
    (fun h => if h = 1 then TaskOutcome.fault (RVal.exn 9)
        else TaskOutcome.val (.vtup [.obj 1, .vdict [],
          .vdict [(.all, .vbool false)], .vdict [(.all, .vbool false)],
          .vdict []])) 1 = TaskOutcome.fault (.exn 9) ∧
    (pollModel (fun h => if h = 1 then TaskOutcome.fault (.exn 9)
        else TaskOutcome.val (.vtup [.obj 1, .vdict [],
          .vdict [(.all, .vbool false)], .vdict [(.all, .vbool false)],
          .vdict []]))
      ([0] ++ 1 :: [2])
      ⟨true, false, false, [10, 11, 12], [(0, 10), (1, 11), (2, 12)], 3, 20⟩).2.2 =
      .error (.transientFault (.exn 9)) :=
  ⟨rfl, rfl, rfl, rfl, rfl,
    poll_norestart_fault_raises
      (fun h => if h = 1 then TaskOutcome.fault (.exn 9)
        else TaskOutcome.val (.vtup [.obj 1, .vdict [],
          .vdict [(.all, .vbool false)], .vdict [(.all, .vbool false)],
          .vdict []]))
      [0] [2] 1
      ⟨true, false, false, [10, 11, 12], [(0, 10), (1, 11), (2, 12)], 3, 20⟩
      ⟨true, false, false, [10, 11, 12], [(1, 11), (2, 12)], 3, 20⟩ [0]
      ⟨[(0, .obj 1)], [(0, .vdict [])], [(0, .vdict [(.all, .vbool false)])],
        [(0, .vdict [(.all, .vbool false)])], [(0, .vdict [])], []⟩
      (.exn 9) 11 1 [(2, 12)] rfl rfl rfl rfl rfl⟩

/-- C1 (code divergence at the failing input): with restarts enabled, a
fault on a **single-agent addressable** worker is synthesized as the
documented multi-agent 5-tuple but then re-wrapped by the single-agent
normalizer, so the batch carries `reward = {AGENT: {}}` (not `{}`) and
`terminated = {AGENT: {"__all__": True}, "__all__": {"__all__": True}}`
(not `{"__all__": True}`); the worker is still restarted.  In multi-agent
addressable mode the very same fault yields exactly the documented record. -/
theorem poll_restart_fault_singleagent_rewrap :
    (pollModel (fun _ => TaskOutcome.fault (.exn 7)) [0]
        ⟨false, true, true, [10], [(0, 10)], 1, 20⟩).1.actors = [20] ∧
    (pollModel (fun _ => TaskOutcome.fault (.exn 7)) [0]
        ⟨false, true, true, [10], [(0, 10)], 1, 20⟩).2.2 =
      .ok ⟨[(0, .vdict [(.dummy, .exn 7)])],
        [(0, .vdict [(.dummy, .vdict [])])],
        [(0, .vdict [(.dummy, .vdict [(.all, .vbool true)]),
                     (.all, .vdict [(.all, .vbool true)])])],
        [(0, .vdict [(.dummy, .vdict [(.all, .vbool false)]),
                     (.all, .vdict [(.all, .vbool false)])])],
        [(0, .vdict [(.dummy, .vdict [])])], []⟩ ∧
    RVal.vdict [(.dummy, .vdict [])] ≠ RVal.vdict [] ∧
    (pollModel (fun _ => TaskOutcome.fault (.exn 7)) [0]
        ⟨true, true, true, [10], [(0, 10)], 1, 20⟩).2.2 =
      .ok ⟨[(0, .exn 7)], [(0, .vdict [])],
        [(0, .vdict [(.all, .vbool true)])],
        [(0, .vdict [(.all, .vbool false)])], [(0, .vdict [])], []⟩ :=
  ⟨rfl, rfl, by simp, rfl⟩

/-- C5: a resolved tuple outcome whose arity is neither 5 nor 2 makes the
addressable-mode normalizer raise a FormatViolation (`AssertionError`) in
both agent modes; `FormatViolation` is a different error than
`TransientWorkerFault`; and at the `poll()` level the violation is raised
whatever the restart flag is, with no restart performed (pool and
fresh-identity counter untouched). -/
theorem arity_format_violation (xs : List RVal)
    (h2 : xs.length ≠ 2) (h5 : xs.length ≠ 5) :
    (∀ ma, normalizeAddressable ma (.vtup xs) = .error .formatViolation) ∧
    (∀ e, PollError.formatViolation ≠ PollError.transientFault e) ∧
    ∀ (resolve : Nat → TaskOutcome) (hd : Nat) (st : DState) (a envId : Nat)
      (pending' : List (Nat × Nat)),
      st.makeEnvCreatesActors = true →
      removePending hd st.pending = some (a, pending') →
      st.actors.findIdx? (· = a) = some envId →
      resolve hd = .val (.vtup xs) →
      (pollModel resolve [hd] st).2.2 = .error .formatViolation ∧
      (pollModel resolve [hd] st).1.actors = st.actors ∧
      (pollModel resolve [hd] st).1.nextId = st.nextId := by
  have hnorm : ∀ ma, normalizeAddressable ma (.vtup xs) = .error .formatViolation := by
    intro ma
    rcases xs with _ | ⟨a, _ | ⟨b, _ | ⟨c, _ | ⟨d, _ | ⟨e, _ | ⟨f, rest⟩⟩⟩⟩⟩⟩
    · cases ma <;> rfl
    · cases ma <;> rfl
    · simp at h2
    · cases ma <;> rfl
    · cases ma <;> rfl
    · simp at h5
    · cases ma <;> rfl
  refine ⟨hnorm, fun e he => PollError.noConfusion he, ?_⟩
  intro resolve hd st a envId pending' hmk hpop hidx hres
  have hph : processHandle resolve hd st =
      ({ st with pending := pending' }, .error (some envId, .formatViolation)) := by
    unfold processHandle
    rw [hpop]
    dsimp only
    rw [hidx, hres]
    dsimp only
    rw [hmk]
    simp [hnorm]
  unfold pollModel
  rw [pollLoop_cons, hph]
  exact ⟨rfl, rfl, rfl⟩

/-- Witness for C5: the spec's arity scenario, a step outcome of length 4. -/
theorem arity_format_violation_witness :
    ([RVal.obj 0, .obj 1, .obj 2, .obj 3].length ≠ 2) ∧
    ([RVal.obj 0, .obj 1, .obj 2, .obj 3].length ≠ 5) ∧
    normalizeAddressable true
      (.vtup [.obj 0, .obj 1, .obj 2, .obj 3]) = .error .formatViolation :=
  ⟨by decide, by decide,
    (arity_format_violation [RVal.obj 0, .obj 1, .obj 2, .obj 3]
      (by decide) (by decide)).1 true⟩

/-- C6 counterexample: pool_size 2 with one supplied **plain** (non-actor)
worker — the supplied worker is not reused at its slot (its identity 5 is
absent from the pool) and two, not one, new workers are built. -/
theorem init_discards_plain_existing_envs :
    (initModel 2 false false [SuppliedEnv.plainEnv 5] 100).actors = [100, 101] ∧
    SuppliedEnv.ident (SuppliedEnv.plainEnv 5) ∉
      (initModel 2 false false [SuppliedEnv.plainEnv 5] 100).actors ∧
    (initModel 2 false false [SuppliedEnv.plainEnv 5] 100).nextId - 100 = 2 := by
  decide

/-- C6 amended: when the FIRST supplied existing worker is already an
addressable actor handle and pool_size exceeds the number supplied,
construction reuses all supplied workers at their slots and builds exactly
`pool_size − supplied` new ones; when the first supplied worker is a plain
env, all supplied workers are discarded and `pool_size` new workers are
built. -/
theorem init_reuses_addressable_workers (numEnvs : Nat) (ma r : Bool)
    (e0 : SuppliedEnv) (rest : List SuppliedEnv) (startId : Nat)
    (hah : e0.isActorHandle = true)
    (hlt : (e0 :: rest).length < numEnvs) :
    (initModel numEnvs ma r (e0 :: rest) startId).actors.take
        (e0 :: rest).length = (e0 :: rest).map SuppliedEnv.ident ∧
    (initModel numEnvs ma r (e0 :: rest) startId).actors.length = numEnvs ∧
    (initModel numEnvs ma r (e0 :: rest) startId).nextId - startId =
      numEnvs - (e0 :: rest).length ∧
    (initModel numEnvs ma r (e0 :: rest) startId).makeEnvCreatesActors = true ∧
    ∀ (p : Nat) (rest2 : List SuppliedEnv),
      (initModel numEnvs ma r (SuppliedEnv.plainEnv p :: rest2) startId).nextId
        - startId = numEnvs ∧
      (initModel numEnvs ma r
        (SuppliedEnv.plainEnv p :: rest2) startId).makeEnvCreatesActors
        = false := by
  cases e0 with
  | plainEnv n => simp [SuppliedEnv.isActorHandle] at hah
  | actorHandle n =>
    refine ⟨?_, ?_, ?_, rfl, ?_⟩
    · show (((SuppliedEnv.actorHandle n :: rest).map SuppliedEnv.ident ++
        (List.range (numEnvs - (SuppliedEnv.actorHandle n :: rest).length)).map
          (fun j => startId + j)).take (SuppliedEnv.actorHandle n :: rest).length)
        = (SuppliedEnv.actorHandle n :: rest).map SuppliedEnv.ident
      rw [show (SuppliedEnv.actorHandle n :: rest).length =
        ((SuppliedEnv.actorHandle n :: rest).map SuppliedEnv.ident).length from
        (List.length_map _ _).symm]
      exact List.take_left _ _
    · show ((SuppliedEnv.actorHandle n :: rest).map SuppliedEnv.ident ++
        (List.range (numEnvs - (SuppliedEnv.actorHandle n :: rest).length)).map
          (fun j => startId + j)).length = numEnvs
      simp only [List.length_append, List.length_map, List.length_range]
      omega
    · show startId + (numEnvs - (SuppliedEnv.actorHandle n :: rest).length)
        - startId = numEnvs - (SuppliedEnv.actorHandle n :: rest).length
      omega
    · intro p rest2
      exact ⟨by show startId + numEnvs - startId = numEnvs; omega, rfl⟩

/-- Witness for C6's amended claim: pool_size 3, one supplied actor handle. -/
theorem init_reuses_addressable_workers_witness :
    (SuppliedEnv.actorHandle 5).isActorHandle = true ∧
    ([SuppliedEnv.actorHandle 5].length < 3) ∧
    (initModel 3 false false [SuppliedEnv.actorHandle 5] 100).actors.take 1
      = [5] ∧
    (initModel 3 false false [SuppliedEnv.actorHandle 5] 100).actors.length
      = 3 ∧
    (initModel 3 false false [SuppliedEnv.actorHandle 5] 100).nextId - 100
      = 2 :=
  ⟨rfl, by decide,
    (init_reuses_addressable_workers 3 false false (SuppliedEnv.actorHandle 5)
      [] 100 rfl (by decide)).1,
    (init_reuses_addressable_workers 3 false false (SuppliedEnv.actorHandle 5)
      [] 100 rfl (by decide)).2.1,
    (init_reuses_addressable_workers 3 false false (SuppliedEnv.actorHandle 5)
      [] 100 rfl (by decide)).2.2.1⟩

/-- C7 counterexample: a worker with an outstanding task handle is
restarted; the handle is still in the pending table afterwards (the slot
holds a fresh actor, the stale handle still maps to the old one). -/
theorem tryRestart_keeps_pending :
    (tryRestartModel 0 ⟨true, true, true, [10], [(0, 10)], 1, 20⟩).pending
      = [(0, 10)] ∧
    (0, 10) ∈ (tryRestartModel 0
      ⟨true, true, true, [10], [(0, 10)], 1, 20⟩).pending ∧
    (tryRestartModel 0 ⟨true, true, true, [10], [(0, 10)], 1, 20⟩).actors
      = [20] := by
  decide

/-- C7 amended: `try_restart` never removes a pending entry itself; a
fault-restarted task's handle is absent afterwards only because `poll()`
pops it before calling `try_restart` (so with unique handles it is gone
from the table after the restart step); and a stale handle whose actor has
left the pool is not silently ignored — resolving it makes `poll()` raise
`ValueError` from `actors.index`. -/
theorem tryRestart_pending_behavior :
    (∀ (envId : Nat) (st : DState),
      (tryRestartModel envId st).pending = st.pending) ∧
    (∀ (resolve : Nat → TaskOutcome) (h : Nat) (st : DState) (a : Nat)
        (pending' : List (Nat × Nat)) (envId : Nat) (e : RVal),
      removePending h st.pending = some (a, pending') →
      st.actors.findIdx? (· = a) = some envId →
      resolve h = .fault e →
      st.restartOnFailure = true →
      (st.pending.map Prod.fst).Nodup →
      (processHandle resolve h st).1.pending = pending' ∧
      h ∉ (processHandle resolve h st).1.pending.map Prod.fst) ∧
    (∀ (resolve : Nat → TaskOutcome) (h : Nat) (rest : List Nat) (st : DState)
        (a : Nat) (pending' : List (Nat × Nat)),
      removePending h st.pending = some (a, pending') →
      st.actors.findIdx? (· = a) = none →
      (pollModel resolve (h :: rest) st).2.2 = .error .valueError) := by
  refine ⟨fun envId st => (tryRestartModel_fields envId st).2.2.2.1, ?_, ?_⟩
  · intro resolve h st a pending' envId e hpop hidx hres hrf hnd
    have hnm : h ∉ pending'.map Prod.fst :=
      removePending_not_mem_of_nodup h st.pending pending' a hnd hpop
    have hpend : (processHandle resolve h st).1.pending = pending' := by
      unfold processHandle
      rw [hpop]
      dsimp only
      rw [hidx, hres]
      dsimp only
      rw [hrf]
      simp only [if_true]
      split
      · exact (tryRestartModel_fields _ _).2.2.2.1
      · exact (tryRestartModel_fields _ _).2.2.2.1
    exact ⟨hpend, by rw [hpend]; exact hnm⟩
  · intro resolve h rest st a pending' hpop hidx
    have hph : processHandle resolve h st =
        ({ st with pending := pending' }, .error (none, .valueError)) := by
      unfold processHandle
      rw [hpop]
      dsimp only
      rw [hidx]
    unfold pollModel
    rw [pollLoop_cons, hph]

/-- Witness for C7's amended claim at a concrete one-worker state. -/
theorem tryRestart_pending_behavior_witness :
    removePending 1 [(1, 11)] = some (11, []) ∧
    ([11] : List Nat).findIdx? (· = 11) = some 0 ∧
    (fun _ : Nat => TaskOutcome.fault (RVal.exn 3)) 1
      = TaskOutcome.fault (.exn 3) ∧
    ((⟨true, false, true, [11], [(1, 11)], 2, 20⟩ :
      DState)).restartOnFailure = true ∧
    (([(1, 11)] : List (Nat × Nat)).map Prod.fst).Nodup ∧
    (processHandle (fun _ => TaskOutcome.fault (.exn 3)) 1
      ⟨true, false, true, [11], [(1, 11)], 2, 20⟩).1.pending = [] ∧
    1 ∉ (processHandle (fun _ => TaskOutcome.fault (.exn 3)) 1
      ⟨true, false, true, [11], [(1, 11)], 2, 20⟩).1.pending.map Prod.fst :=
  ⟨rfl, rfl, rfl, rfl, by decide,
    (tryRestart_pending_behavior.2.1 (fun _ => TaskOutcome.fault (.exn 3)) 1
      ⟨true, false, true, [11], [(1, 11)], 2, 20⟩ 11 [] 0 (.exn 3)
      rfl rfl rfl rfl (by decide)).1,
    (tryRestart_pending_behavior.2.1 (fun _ => TaskOutcome.fault (.exn 3)) 1
      ⟨true, false, true, [11], [(1, 11)], 2, 20⟩ 11 [] 0 (.exn 3)
      rfl rfl rfl rfl (by decide)).2⟩

/-- C8 counterexample: a multi-agent addressable step outcome whose
terminated/truncated dicts lack `"__all__"` is passed through by `poll()`
unchanged, so the returned record has no `"__all__"` key. -/
theorem poll_missing_all_key :
    (pollModel (fun _ => TaskOutcome.val (.vtup [.vdict [(.name "a", .obj 1)],
        .vdict [], .vdict [], .vdict [], .vdict []])) [0]
      ⟨true, true, false, [10], [(0, 10)], 1, 20⟩).2.2 =
      .ok ⟨[(0, .vdict [(.name "a", .obj 1)])], [(0, .vdict [])],
        [(0, .vdict [])], [(0, .vdict [])], [(0, .vdict [])], []⟩ ∧
    (RVal.vdict []).hasKey .all = false :=
  ⟨rfl, rfl⟩

/-- C8 amended: every record the code itself synthesizes carries
`"__all__"` in both terminated and truncated — single-agent normalization
(step and reset), multi-agent reset normalization, both proxies' resets,
the single-agent proxy's step, and the fault-synthesized record — while a
multi-agent step outcome is passed through as-is, so there the key is
present exactly when the wrapped environment supplied it. -/
theorem all_key_presence :
    (∀ (ret : RVal) (rec : Record), normalizeAddressable false ret = .ok rec →
      rec.terminated.hasKey .all = true ∧ rec.truncated.hasKey .all = true) ∧
    (∀ (d : List (AgentKey × RVal)) (i : RVal) (rec : Record),
      normalizeAddressable true (.vtup [.vdict d, i]) = .ok rec →
      rec.terminated.hasKey .all = true ∧ rec.truncated.hasKey .all = true) ∧
    (∀ o r t tr i : RVal,
      normalizeAddressable true (.vtup [o, r, t, tr, i]) = .ok ⟨o, r, t, tr, i⟩) ∧
    (∀ (ret : RVal) (rec : Record), remoteSingleAgentStep ret = .ok rec →
      rec.terminated.hasKey .all = true ∧ rec.truncated.hasKey .all = true) ∧
    (∀ (ret : RVal) (rec : Record), remoteSingleAgentReset ret = .ok rec →
      rec.terminated.hasKey .all = true ∧ rec.truncated.hasKey .all = true) ∧
    (∀ (st st' : MAEnvState) (ret : RVal) (rec : Record),
      maReset st ret = .ok (st', rec) →
      rec.terminated.hasKey .all = true ∧ rec.truncated.hasKey .all = true) ∧
    (∀ (e : RVal) (rec : Record), unpackWrapped (faultSynth e) = .ok rec →
      rec.terminated.hasKey .all = true ∧ rec.truncated.hasKey .all = true) := by
  refine ⟨?_, ?_, fun o r t tr i => rfl, ?_, ?_, ?_, ?_⟩
  · intro ret rec hok
    rcases ret with n | n | n | n | b | d | xs | _
    case vtup =>
      rcases xs with _ | ⟨a, _ | ⟨b, _ | ⟨c, _ | ⟨d, _ | ⟨e, _ | ⟨f, more⟩⟩⟩⟩⟩⟩ <;>
        cases hok <;> exact ⟨rfl, rfl⟩
    all_goals cases hok
  · intro d i rec hok
    cases hok
    exact ⟨rfl, rfl⟩
  · intro ret rec hok
    rcases ret with n | n | n | n | b | d | xs | _
    case vtup =>
      rcases xs with _ | ⟨a, _ | ⟨b, _ | ⟨c, _ | ⟨d, _ | ⟨e, _ | ⟨f, more⟩⟩⟩⟩⟩⟩ <;>
        cases hok <;> exact ⟨rfl, rfl⟩
    all_goals cases hok
  · intro ret rec hok
    rcases ret with n | n | n | n | b | d | xs | _
    case vtup =>
      rcases xs with _ | ⟨a, _ | ⟨b, more⟩⟩ <;> cases hok <;> exact ⟨rfl, rfl⟩
    all_goals cases hok
  · intro st st' ret rec hok
    rcases ret with n | n | n | n | b | d | xs | _
    case vtup =>
      rcases xs with _ | ⟨a, _ | ⟨b, _ | ⟨c, more⟩⟩⟩
      · cases hok
      · cases hok
      · rcases a with n | n | n | n | bb | d | ys | _ <;> cases hok <;>
          exact ⟨rfl, rfl⟩
      · cases hok
    all_goals cases hok
  · intro e rec hok
    cases hok
    exact ⟨rfl, rfl⟩

/-- Witness for C8's amended claim at concrete reset/step inputs. -/
theorem all_key_presence_witness :
    normalizeAddressable false (.vtup [.obj 1, .vdict []])
      = .ok ⟨.vdict [(.dummy, .obj 1)], .vdict [(.dummy, .vint 0)],
        .vdict [(.all, .vbool false)], .vdict [(.all, .vbool false)],
        .vdict [(.dummy, .vdict [])]⟩ ∧
    ((Record.mk (.vdict [(.dummy, .obj 1)]) (.vdict [(.dummy, .vint 0)])
        (.vdict [(.all, .vbool false)]) (.vdict [(.all, .vbool false)])
        (.vdict [(.dummy, .vdict [])])).terminated.hasKey .all = true ∧
      (Record.mk (.vdict [(.dummy, .obj 1)]) (.vdict [(.dummy, .vint 0)])
        (.vdict [(.all, .vbool false)]) (.vdict [(.all, .vbool false)])
        (.vdict [(.dummy, .vdict [])])).truncated.hasKey .all = true) :=
  ⟨rfl, all_key_presence.1 (.vtup [.obj 1, .vdict []])
    (Record.mk (.vdict [(.dummy, .obj 1)]) (.vdict [(.dummy, .vint 0)])
      (.vdict [(.all, .vbool false)]) (.vdict [(.all, .vbool false)])
      (.vdict [(.dummy, .vdict [])])) rfl⟩

lemma addAgentId_toFinset (a : AgentKey) (l : List AgentKey) :
    (addAgentId a l).toFinset = insert a l.toFinset := by
  unfold addAgentId
  split
  · rename_i hmem
    rw [Finset.insert_eq_self.mpr (List.mem_toFinset.mpr hmem)]
  · rw [List.toFinset_append]
    simp [Finset.insert_eq, Finset.union_comm]

lemma foldl_addAgentId_toFinset (d : List (AgentKey × RVal)) :
    ∀ (l : List AgentKey),
      (d.foldl (fun l p => addAgentId p.1 l) l).toFinset =
        l.toFinset ∪ (d.map Prod.fst).toFinset := by
  induction d with
  | nil => intro l; simp
  | cons p rest ih =>
    intro l
    simp only [List.foldl_cons, List.map_cons, List.toFinset_cons]
    rw [ih (addAgentId p.1 l), addAgentId_toFinset]
    ext x
    simp [or_assoc, or_left_comm, or_comm]

lemma runMA_agentIds_toFinset (calls : List MACall) :
    ∀ st : MAEnvState,
      (runMA calls st).agentIds.toFinset =
        st.agentIds.toFinset ∪ (calls.flatMap resetObsKeys).toFinset := by
  induction calls with
  | nil => intro st; simp [runMA]
  | cons c rest ih =>
    intro st
    cases c with
    | stepCall r => simp [runMA, maStep, resetObsKeys, ih]
    | resetCall r =>
      rcases r with n | n | n | n | b | d | xs | _
      case vtup =>
        rcases xs with _ | ⟨a, _ | ⟨b, _ | ⟨c', more⟩⟩⟩
        · simp [runMA, maReset, resetObsKeys, ih]
        · simp [runMA, maReset, resetObsKeys, ih]
        · rcases a with n | n | n | n | bb | d | ys | _
          case vdict =>
            show (runMA rest ⟨d.foldl (fun l p => addAgentId p.1 l)
              st.agentIds⟩).agentIds.toFinset = _
            rw [ih]
            show _ = st.agentIds.toFinset ∪
              ((d.map Prod.fst) ++ rest.flatMap resetObsKeys).toFinset
            rw [List.toFinset_append, foldl_addAgentId_toFinset]
            simp [MAEnvState.agentIds, Finset.union_assoc]
          all_goals simp [runMA, maReset, resetObsKeys, ih]
        · simp [runMA, maReset, resetObsKeys, ih]
      all_goals simp [runMA, maReset, resetObsKeys, ih]

lemma runMA_append (l1 l2 : List MACall) :
    ∀ st, runMA (l1 ++ l2) st = runMA l2 (runMA l1 st) := by
  induction l1 with
  | nil => intro st; rfl
  | cons c rest ih =>
    intro st
    cases c with
    | stepCall r => simp only [List.cons_append, runMA, maStep]; exact ih _
    | resetCall r =>
      simp only [List.cons_append, runMA]
      rcases h : maReset st r with er | ⟨st', rec⟩ <;> exact ih _

/-- C10: in multi-agent proxy mode, `get_agent_ids()` returns exactly the
agent identifiers that appeared as observation keys in some completed
`reset()` of worker 0's wrapped environment since the worker was built
(empty with no completed resets, monotone under appended calls, never fed
by `step()` observations). -/
theorem multiagent_getAgentIds_from_resets (calls pre post : List MACall) :
    (getAgentIdsModel true (runMA calls maInit)).toFinset =
      (calls.flatMap resetObsKeys).toFinset ∧
    ∀ a, a ∈ getAgentIdsModel true (runMA pre maInit) →
      a ∈ getAgentIdsModel true (runMA (pre ++ post) maInit) := by
  constructor
  · show (runMA calls maInit).agentIds.toFinset = _
    rw [runMA_agentIds_toFinset]
    simp [maInit]
  · intro a ha
    show a ∈ (runMA (pre ++ post) maInit).agentIds
    rw [← List.mem_toFinset, runMA_append, runMA_agentIds_toFinset]
    simp only [Finset.mem_union, List.mem_toFinset]
    exact Or.inl ha

lemma nodup_set_of_not_mem : ∀ (l : List Nat) (i v : Nat),
    l.Nodup → v ∉ l → (l.set i v).Nodup := by
  intro l
  induction l with
  | nil => intro i v _ _; simp
  | cons x rest ih =>
    intro i v hnd hv
    simp only [List.mem_cons] at hv
    push_neg at hv
    cases i with
    | zero =>
      simp only [List.set]
      simp only [List.nodup_cons] at hnd ⊢
      exact ⟨hv.2, hnd.2⟩
    | succ j =>
      simp only [List.set]
      simp only [List.nodup_cons] at hnd ⊢
      refine ⟨?_, ih j v hnd.2 hv.2⟩
      intro hmem
      rcases List.mem_or_eq_of_mem_set hmem with hmem' | rfl
      · exact hnd.1 hmem'
      · exact hv.1 rfl

lemma DInv.popPending {st : DState} (hI : DInv st) {h a : Nat}
    {pending' : List (Nat × Nat)}
    (hrm : removePending h st.pending = some (a, pending')) :
    DInv { st with pending := pending' } := by
  have hsub := removePending_sublist h st.pending pending' a hrm
  exact ⟨hI.actorsNodup, hI.actorsLt,
    fun p hp => hI.handlesLt p (hsub.subset hp),
    fun p hp => hI.targetsLt p (hsub.subset hp),
    fun b hb => le_trans (hsub.countP_le _) (hI.atMostOne b hb)⟩

lemma DInv.restartPres {st : DState} (hI : DInv st) (envId : Nat) :
    DInv (tryRestartModel envId st) := by
  unfold tryRestartModel
  split
  · refine ⟨?_, ?_, hI.handlesLt, ?_, ?_⟩
    · exact nodup_set_of_not_mem st.actors envId st.nextId hI.actorsNodup
        (fun hmem => absurd (hI.actorsLt _ hmem) (lt_irrefl _))
    · intro a ha
      rcases List.mem_or_eq_of_mem_set ha with hmem | rfl
      · exact Nat.lt_succ_of_lt (hI.actorsLt a hmem)
      · exact Nat.lt_succ_self _
    · intro p hp
      exact Nat.lt_succ_of_lt (hI.targetsLt p hp)
    · intro a ha
      rcases List.mem_or_eq_of_mem_set ha with hmem | rfl
      · exact hI.atMostOne a hmem
      · have h0 : st.pending.countP (fun p => p.2 == st.nextId) = 0 :=
          List.countP_eq_zero.mpr (fun p hp => by
            simp only [beq_iff_eq]
            exact Nat.ne_of_lt (hI.targetsLt p hp))
        rw [h0]
        exact Nat.zero_le 1
  · exact hI

lemma DInv.processHandleStep {st : DState} (hI : DInv st)
    (resolve : Nat → TaskOutcome) (h : Nat) :
    DInv (processHandle resolve h st).1 := by
  rcases processHandle_state resolve h st with hst | ⟨a, p', hrm, hst | ⟨envId, hst⟩⟩ <;>
    rw [hst]
  · exact hI
  · exact hI.popPending hrm
  · exact (hI.popPending hrm).restartPres envId

lemma DInv.pollLoopPres (resolve : Nat → TaskOutcome) :
    ∀ (ready : List Nat) (st : DState) (acc : Batch) (ids : List Nat),
      DInv st → DInv (pollLoop resolve ready st acc ids).1 := by
  intro ready
  induction ready with
  | nil => intro st acc ids hI; exact hI
  | cons h rest ih =>
    intro st acc ids hI
    rw [pollLoop_cons]
    have hph := hI.processHandleStep resolve h
    rcases hp : processHandle resolve h st with ⟨st1, (⟨oid, er⟩ | ⟨envId, rec⟩)⟩ <;>
      rw [hp] at hph
    · exact hph
    · exact ih st1 _ _ hph

lemma DInv.submitPres {st : DState} (hI : DInv st) {a : Nat} (ha : a ∈ st.actors)
    (hfree : st.pending.countP (fun q => q.2 == a) = 0) :
    DInv (submitTo a st) := by
  have hnk : st.nextHandle ∉ st.pending.map Prod.fst := by
    intro hmem
    rcases List.mem_map.mp hmem with ⟨p, hp, hfst⟩
    exact absurd (hfst ▸ hI.handlesLt p hp) (lt_irrefl _)
  have hsubmit : submitTo a st =
      { st with
        pending := st.pending ++ [(st.nextHandle, a)]
        nextHandle := st.nextHandle + 1 } := by
    unfold submitTo
    rw [setKey_append_of_not_mem _ _ _ hnk]
  rw [hsubmit]
  refine ⟨hI.actorsNodup, hI.actorsLt, ?_, ?_, ?_⟩
  · intro p hp
    rcases List.mem_append.mp hp with h1 | h2
    · exact Nat.lt_succ_of_lt (hI.handlesLt p h1)
    · have h3 := List.mem_singleton.mp h2
      subst h3
      exact Nat.lt_succ_self _
  · intro p hp
    rcases List.mem_append.mp hp with h1 | h2
    · exact hI.targetsLt p h1
    · have h3 := List.mem_singleton.mp h2
      subst h3
      exact hI.actorsLt a ha
  · intro b hb
    rw [List.countP_append]
    by_cases hab : a = b
    · subst hab
      rw [hfree]
      simp
    · have h4 : ([(st.nextHandle, a)].countP (fun q => q.2 == b)) = 0 := by
        simp [hab]
      rw [h4]
      simpa using hI.atMostOne b hb

lemma sendActionsLoop_cons (envId : Nat) (actions : RVal)
    (rest : List (Nat × RVal)) (st : DState) :
    sendActionsLoop ((envId, actions) :: rest) st =
      match st.actors.get? envId with
      | none => (st, .error .indexError)
      | some a =>
        if !st.multiagent && st.makeEnvCreatesActors then
          match actions with
          | .vdict d =>
            match getKey AgentKey.dummy d with
            | some _ => sendActionsLoop rest (submitTo a st)
            | none => (st, .error .keyError)
          | _ => (st, .error .typeError)
        else
          sendActionsLoop rest (submitTo a st) := rfl

lemma DInv.sendLoopPres : ∀ (acts : List (Nat × RVal)) (st : DState),
    DInv st → (acts.map Prod.fst).Nodup →
    (∀ p ∈ acts, ∀ a, st.actors.get? p.1 = some a →
      st.pending.countP (fun q => q.2 == a) = 0) →
    DInv (sendActionsLoop acts st).1 := by
  intro acts
  induction acts with
  | nil => intro st hI _ _; exact hI
  | cons pa rest ih =>
    intro st hI hnd hfree
    obtain ⟨envId, actions⟩ := pa
    rw [sendActionsLoop_cons]
    rcases hget : st.actors.get? envId with _ | a
    · exact hI
    · have haMem : a ∈ st.actors := List.get?_mem hget
      have hfreeA : st.pending.countP (fun q => q.2 == a) = 0 :=
        hfree (envId, actions) (List.mem_cons_self _ _) a hget
      have hI' : DInv (submitTo a st) := hI.submitPres haMem hfreeA
      simp only [List.map_cons, List.nodup_cons] at hnd
      have hrest : ∀ p ∈ rest, ∀ b, (submitTo a st).actors.get? p.1 = some b →
          (submitTo a st).pending.countP (fun q => q.2 == b) = 0 := by
        intro p hp b hb
        have hb' : st.actors.get? p.1 = some b := hb
        have h0 : st.pending.countP (fun q => q.2 == b) = 0 :=
          hfree p (List.mem_cons_of_mem _ hp) b hb'
        have hne : envId ≠ p.1 := by
          intro he
          exact hnd.1 (he ▸ List.mem_map_of_mem Prod.fst hp)
        have hab : a ≠ b := by
          intro he
          subst he
          have h1 : st.actors[envId]? = some a := by
            rwa [← List.get?_eq_getElem?]
          have h2 : st.actors[p.1]? = some a := by
            rwa [← List.get?_eq_getElem?]
          exact hne (List.getElem?_inj (List.getElem?_eq_some.mp h1).1
            hI.actorsNodup (h1.trans h2.symm))
        have hnk : st.nextHandle ∉ st.pending.map Prod.fst := by
          intro hmem
          rcases List.mem_map.mp hmem with ⟨q, hq, hfst⟩
          exact absurd (hfst ▸ hI.handlesLt q hq) (lt_irrefl _)
        show (setKey st.nextHandle a st.pending).countP (fun q => q.2 == b) = 0
        rw [setKey_append_of_not_mem _ _ _ hnk, List.countP_append, h0]
        simp [hab]
      have hrec : DInv (sendActionsLoop rest (submitTo a st)).1 :=
        ih (submitTo a st) hI' hnd.2 hrest
      dsimp only
      split
      · split
        · split
          · exact hrec
          · exact hI
        · exact hI
      · exact hrec

lemma DInv.tryResetPres {st : DState} (hI : DInv st) (envId : Nat)
    (hdisc : ∀ a, st.actors.get? envId = some a → ∀ q ∈ st.pending, q.2 ≠ a) :
    DInv (tryResetModel envId st).1 := by
  unfold tryResetModel
  rcases hget : st.actors.get? envId with _ | a
  · exact hI
  · have hfree : st.pending.countP (fun q => q.2 == a) = 0 :=
      List.countP_eq_zero.mpr (fun q hq => by
        simp only [beq_iff_eq]
        exact hdisc a hget q hq)
    exact hI.submitPres (List.get?_mem hget) hfree

lemma DInv.applyCallPres {st : DState} (hI : DInv st) (c : DCall)
    (hd : disciplined st c) : DInv (applyCall c st) := by
  cases c with
  | pollC resolve ready => exact DInv.pollLoopPres resolve ready st emptyBatch [] hI
  | sendC acts =>
    refine DInv.sendLoopPres acts st hI hd.1 ?_
    intro p hp a ha
    exact List.countP_eq_zero.mpr (fun q hq => by
      simp only [beq_iff_eq]
      exact hd.2 p hp a ha q hq)
  | resetC envId => exact hI.tryResetPres envId hd
  | restartC envId => exact hI.restartPres envId

lemma DInv.ofSeed (ma mk r : Bool) (actors : List Nat) (nid : Nat)
    (hnd : actors.Nodup) (hlt : ∀ a ∈ actors, a < nid) :
    DInv ⟨ma, mk, r, actors, actors.enum, actors.length, nid⟩ := by
  refine ⟨hnd, hlt, ?_, ?_, ?_⟩
  · intro p hp
    exact (List.getElem?_eq_some.mp (List.mem_enum_iff_getElem?.mp hp)).1
  · intro p hp
    exact hlt p.2 (List.getElem?_mem (List.mem_enum_iff_getElem?.mp hp))
  · intro a ha
    have h1 : (actors.enum.countP (fun p => p.2 == a)) =
        actors.countP (fun x => x == a) := by
      conv_rhs => rw [← List.enum_map_snd actors]
      rw [List.countP_map]
      rfl
    show (actors.enum.countP (fun p => p.2 == a)) ≤ 1
    rw [h1]
    exact List.nodup_iff_count_le_one.mp hnd a

lemma freshActors_nodup (numEnvs startId : Nat) :
    ((List.range numEnvs).map (fun j => startId + j)).Nodup :=
  (List.nodup_range numEnvs).map (fun x y hxy => by omega)

lemma freshActors_lt (numEnvs startId : Nat) :
    ∀ a ∈ (List.range numEnvs).map (fun j => startId + j),
      a < startId + numEnvs := by
  intro a ha
  rcases List.mem_map.mp ha with ⟨j, hj, rfl⟩
  have := List.mem_range.mp hj
  omega

lemma DInv.initPres (numEnvs : Nat) (ma r : Bool)
    (existing : List SuppliedEnv) (startId : Nat)
    (hg : GoodInit existing startId) :
    DInv (initModel numEnvs ma r existing startId) := by
  obtain ⟨hgnd, hglt⟩ := hg
  cases existing with
  | nil =>
    exact DInv.ofSeed ma false r _ _ (freshActors_nodup numEnvs startId)
      (freshActors_lt numEnvs startId)
  | cons e0 rest =>
    cases e0 with
    | plainEnv n =>
      exact DInv.ofSeed ma false r _ _ (freshActors_nodup numEnvs startId)
        (freshActors_lt numEnvs startId)
    | actorHandle n =>
      have hdisj : ((SuppliedEnv.actorHandle n :: rest).map SuppliedEnv.ident).Disjoint
          ((List.range (numEnvs - (SuppliedEnv.actorHandle n :: rest).length)).map
            (fun j => startId + j)) := by
        intro a ha hafresh
        rcases List.mem_map.mp ha with ⟨e, he, rfl⟩
        rcases List.mem_map.mp hafresh with ⟨j, hj, hje⟩
        have h1 := hglt e he
        omega
      refine DInv.ofSeed ma true r _ _ (hgnd.append
        (freshActors_nodup _ startId) hdisj) ?_
      intro a ha
      rcases List.mem_append.mp ha with h1 | h2
      · rcases List.mem_map.mp h1 with ⟨e, he, rfl⟩
        have := hglt e he
        omega
      · rcases List.mem_map.mp h2 with ⟨j, hj, rfl⟩
        have := List.mem_range.mp hj
        omega

lemma Reach.dinv : ∀ {st : DState}, Reach st → DInv st := by
  intro st hr
  induction hr with
  | init numEnvs ma r existing startId hg =>
    exact DInv.initPres numEnvs ma r existing startId hg
  | step st' c hr hd ih => exact ih.applyCallPres c hd

/-- C9: under the discipline that no second task is submitted for a worker
before its first is polled, every reachable dispatcher state — after
construction and after any sequence of poll, send_actions, try_reset and
try_restart calls — has at most one outstanding pending-table entry
targeting the worker at any slot. -/
theorem pending_at_most_one_per_env (st : DState) (hr : Reach st)
    (i a : Nat) (ha : st.actors.get? i = some a) :
    st.pending.countP (fun p => p.2 == a) ≤ 1 :=
  hr.dinv.atMostOne a (List.get?_mem ha)

/-- Witness for C9 at a freshly constructed two-worker dispatcher after a
direct restart of slot 0. -/
theorem pending_at_most_one_per_env_witness :
    (applyCall (DCall.restartC 0) (initModel 2 false false [] 0)).actors.get? 0
      = some 2 ∧
    (applyCall (DCall.restartC 0)
      (initModel 2 false false [] 0)).pending.countP (fun p => p.2 == 2) ≤ 1 :=
  ⟨rfl, pending_at_most_one_per_env _
    (Reach.step _ (DCall.restartC 0)
      (Reach.init 2 false false [] 0 ⟨List.nodup_nil, by simp⟩) trivial)
    0 2 rfl⟩

/-- Witness for C10: one completed reset with agent key `"a"`, then a step
call appended — the id set is `{"a"}` and survives the appended call. -/
theorem multiagent_getAgentIds_from_resets_witness :
    (getAgentIdsModel true (runMA
        [MACall.resetCall (.vtup [.vdict [(.name "a", .obj 1)], .vdict []])]
        maInit)).toFinset =
      ([MACall.resetCall (.vtup [.vdict [(.name "a", .obj 1)], .vdict []])].flatMap
        resetObsKeys).toFinset ∧
    AgentKey.name "a" ∈ getAgentIdsModel true (runMA
      [MACall.resetCall (.vtup [.vdict [(.name "a", .obj 1)], .vdict []])]
      maInit) ∧
    AgentKey.name "a" ∈ getAgentIdsModel true (runMA
      ([MACall.resetCall (.vtup [.vdict [(.name "a", .obj 1)], .vdict []])] ++
        [MACall.stepCall (.vdict [])]) maInit) :=
  ⟨(multiagent_getAgentIds_from_resets
      [MACall.resetCall (.vtup [.vdict [(.name "a", .obj 1)], .vdict []])]
      [MACall.resetCall (.vtup [.vdict [(.name "a", .obj 1)], .vdict []])]
      [MACall.stepCall (.vdict [])]).1,
    by decide,
    (multiagent_getAgentIds_from_resets
      [MACall.resetCall (.vtup [.vdict [(.name "a", .obj 1)], .vdict []])]
      [MACall.resetCall (.vtup [.vdict [(.name "a", .obj 1)], .vdict []])]
      [MACall.stepCall (.vdict [])]).2 (AgentKey.name "a") (by decide)⟩
